import Mathlib

/-!
Verification of the SMB share mounter core (src/SMBMounter.py).

The embedding models the share-lifecycle logic of the `SMBMounter` class:
share discovery (`detect_shares`), the mount endpoint path construction,
mounting and unmounting a single share (`mount_share`, `unmount_share`),
the batch loops (`mount_selected`, `unmount_selected`), the refresh flow
(`refresh_shares`'s save/restore of per-share flags), server connection
(`connect_to_server`) and registry reconciliation (`check_mounted_shares`).

External effects are made explicit parameters:
  - the outcome of a `subprocess.run` call is a `Bool` (or, for discovery,
    an `Except` carrying return code / stdout / stderr);
  - the filesystem is a state `FS` recording, for each share name, the
    symlink (if any) at `<links-root>/<share>` together with which plain
    paths currently exist.  `Path.exists()` follows symlinks, so on a link
    path it holds iff the link is present and its target exists.
-/

set_option autoImplicit false

namespace SMBMounter

/-- Filesystem state relevant to the mounter: the symlink farm keyed by
share name (value = the link's target path), and existence of plain
(non-link) paths such as gvfs endpoints. -/
structure FS where
  links : String → Option String
  real : String → Bool

/-- `Path.exists()` on the link path `<links-root>/<share>`: it follows the
symlink, so a dangling link (present but with a non-existing target) does
not "exist". -/
def pathExists (fs : FS) (share : String) : Bool :=
  match fs.links share with
  | some t => fs.real t
  | none => false

/-- Update the symlink farm at one share name (`unlink` with `none`,
`symlink_to target` with `some target`). -/
def setLink (fs : FS) (share : String) (v : Option String) : FS :=
  { fs with links := fun k => if k = share then v else fs.links k }

/-- Line 220 of the source: the gvfs endpoint path
`/run/user/{uid}/gvfs/smb-share:server={server},share={share}`. -/
def endpointPath (uid : Nat) (server share : String) : String :=
  "/run/user/" ++ toString uid ++ "/gvfs/smb-share:server=" ++ server ++ ",share=" ++ share

/-! ## Share discovery (`detect_shares`, lines 95-128) -/

/-- Tokenizer for Python `str.split()` with no argument: accumulate the
current word (reversed) and split on whitespace, dropping empty fields. -/
def tokenize : List Char → List Char → List String
  | acc, [] => if acc.isEmpty then [] else [⟨acc.reverse⟩]
  | acc, c :: t =>
    if c.isWhitespace then
      if acc.isEmpty then tokenize [] t else ⟨acc.reverse⟩ :: tokenize [] t
    else tokenize (c :: acc) t

/-- Python `str.split()` with no argument. -/
def pySplit (s : String) : List String :=
  tokenize [] s.toList

/-- Python `str.split('\n')`: split on newlines, keeping empty fields
(so the empty string yields one empty line, as in Python). -/
def splitNl : List Char → List Char → List String
  | acc, [] => [⟨acc.reverse⟩]
  | acc, c :: t =>
    if c = '\n' then ⟨acc.reverse⟩ :: splitNl [] t else splitNl (c :: acc) t

/-- The lines of a command's stdout, as `stdout.split('\n')` produces
them. -/
def pyLines (s : String) : List String :=
  splitNl [] s.toList

/-- Python `str.strip()`: drop leading and trailing whitespace. -/
def pyStrip (s : String) : String :=
  ⟨((s.toList.dropWhile Char.isWhitespace).reverse.dropWhile Char.isWhitespace).reverse⟩

/-- Whether the first character list starts the second. -/
def startsWithChars : List Char → List Char → Bool
  | [], _ => true
  | _ :: _, [] => false
  | a :: as, b :: bs => a = b && startsWithChars as bs

/-- Whether the first character list occurs contiguously in the second. -/
def hasSubChars (n : List Char) : List Char → Bool
  | [] => n.isEmpty
  | c :: t => startsWithChars n (c :: t) || hasSubChars n t

/-- Python's substring test `needle in hay`. -/
def strContains (hay needle : String) : Bool :=
  hasSubChars needle.toList hay.toList

/-- Python dict insertion `shares[name] = {...}`: a duplicate key keeps its
original position (values here are all the same fresh record). -/
def insertShare (acc : List String) (n : String) : List String :=
  if acc.contains n then acc else acc ++ [n]

/-- The selection test of line 105: `"Disk" in line and not "$" in line`. -/
def lineSelected (line : String) : Bool :=
  strContains line "Disk" && !strContains line "$"

/-- Line 106: `line.split()[0].strip()`. -/
def lineName (line : String) : String :=
  pyStrip ((pySplit line).headD "")

/-- Lines 104-107: scan one stdout line, adding the first token of every
selected line to the share dict. -/
def parseLine (acc : List String) (line : String) : List String :=
  if lineSelected line then insertShare acc (lineName line) else acc

/-- Lines 103-107: `result.stdout.split('\n')` scanned line by line. -/
def parseShares (stdout : String) : List String :=
  (pyLines stdout).foldl parseLine []

/-- The outcome of a discovery pass, distinguishing a clean listing from
the two degraded paths of `detect_shares`. -/
inductive DiscoveryOutcome where
  | ok : DiscoveryOutcome
  | noSharesFound : DiscoveryOutcome
  | discoveryFailed : String → DiscoveryOutcome
  deriving DecidableEq, Repr

/-- Lines 24-29: the hard-coded fallback share list. -/
def default_shares : List String := ["photo", "music", "video", "commun"]

/-- Lines 95-128, `detect_shares`.  The `subprocess.run` result is passed
in as `Except.ok (returncode, stdout, stderr)`; `Except.error msg` models
the call raising (binary missing, network unreachable, timeout), which the
`except` clause turns into the fallback list. -/
def detect_shares (res : Except String (Int × String × String)) : List String × DiscoveryOutcome :=
  match res with
  | .error e => (default_shares, .discoveryFailed e)
  | .ok (rc, out, err) =>
    if rc = 0 then
      let shares := parseShares out
      if shares.isEmpty then (default_shares, .noSharesFound)
      else (shares, .ok)
    else (default_shares, .discoveryFailed err)

/-! ## Mounting one share (`mount_share`, lines 213-236) -/

/-- Lines 213-236, `mount_share`.  `gioOk` is the exit status of
`gio mount smb://server/share`; `symlinkOk` models whether the
`symlink_to` call, when reached with the path free, succeeds (an OS error
raised there is caught by the `except` at line 234).  When the link path
is occupied but `link_path.exists()` is false (a dangling symlink), the
`unlink` is skipped and `symlink_to` deterministically raises
`FileExistsError`, also caught at line 234.  Returns the function's
boolean result and the new filesystem state. -/
def mount_share (gioOk symlinkOk : Bool) (uid : Nat) (server share : String) (fs : FS) :
    Bool × FS :=
  if gioOk then
    let endpoint := endpointPath uid server share
    if fs.real endpoint then
      if pathExists fs share then
        let fs1 := setLink fs share none
        if symlinkOk then (true, setLink fs1 share (some endpoint))
        else (false, fs1)
      else
        match fs.links share with
        | some _ => (false, fs)
        | none =>
          if symlinkOk then (true, setLink fs share (some endpoint))
          else (false, fs)
    else (true, fs)
  else (false, fs)

/-! ## Unmounting one share (`unmount_share`, lines 245-259) -/

/-- Observable actions of `unmount_share`, in program order. -/
inductive Ev where
  | unlink : String → Ev
  | gioUnmount : String → String → Ev
  deriving DecidableEq, Repr

/-- Lines 245-259, `unmount_share`: remove the link if `link_path.exists()`
(follows the symlink), then run `gio mount -u` with `check=True`; a
non-zero exit raises, is caught, and the function returns `False` — the
link removal is not rolled back.  The event list records the order of the
two effects. -/
def unmount_share (unmountOk : Bool) (server share : String) (fs : FS) :
    Bool × FS × List Ev :=
  let step := if pathExists fs share then (setLink fs share none, [Ev.unlink share]) else (fs, [])
  let evs := step.2 ++ [Ev.gioUnmount server share]
  if unmountOk then (true, step.1, evs) else (false, step.1, evs)

/-! ## Batch loops (`mount_selected` lines 206-211, `unmount_selected` lines 238-243) -/

/-- Lines 206-211, `mount_selected`: iterate over the selected share names
in order, calling `mount_share` on each; the per-share outcomes are
collected in order (the source discards the booleans, but each call
produces exactly one).  `gio` and `symlink` give each share's external
outcomes. -/
def mount_selected (gio symlink : String → Bool) (uid : Nat) (server : String)
    (selected : List String) (fs : FS) : List (String × Bool) × FS :=
  selected.foldl
    (fun acc sh =>
      let r := mount_share (gio sh) (symlink sh) uid server sh acc.2
      (acc.1 ++ [(sh, r.1)], r.2))
    ([], fs)

/-- Lines 238-243, `unmount_selected`: same loop shape over
`unmount_share`. -/
def unmount_selected (osOk : String → Bool) (server : String)
    (selected : List String) (fs : FS) : List (String × Bool) × FS :=
  selected.foldl
    (fun acc sh =>
      let r := unmount_share (osOk sh) server sh acc.2
      (acc.1 ++ [(sh, r.1)], r.2.1))
    ([], fs)

/-! ## Registry reconciliation (`check_mounted_shares`, lines 261-265) -/

/-- Lines 261-265: for every registered share, set `mounted` to
`link_path.exists()`. -/
def check_mounted_shares (fs : FS) (shares : List (String × Bool)) : List (String × Bool) :=
  shares.map (fun p => (p.1, pathExists fs p.1))

/-! ## Refresh (`refresh_shares`, lines 186-204) -/

/-- Line 203: setting one share's saved flag into the freshly created
per-share variables. -/
def setFlag (acc : List (String × Bool)) (n : String) (b : Bool) : List (String × Bool) :=
  acc.map (fun q => if q.1 = n then (n, b) else q)

/-- Lines 186-204, the state carried across `refresh_shares`: the old
registry's per-share flags are saved (lines 189-190), the new share names
each start with a fresh `False` variable, and each saved flag is restored
when its name is present in the new set (lines 202-204). -/
def refresh_carry (old : List (String × Bool)) (newNames : List String) :
    List (String × Bool) :=
  old.foldl
    (fun acc p => if newNames.contains p.1 then setFlag acc p.1 p.2 else acc)
    (newNames.map (fun n => (n, false)))

/-! ## Server connection (`connect_to_server`, lines 64-87) -/

/-- The session state the claims observe: current server and the share
registry. -/
structure Session where
  server : String
  shares : List (String × Bool)

/-- Lines 64-87, `connect_to_server`: an all-whitespace entry is rejected
and the session is unchanged; otherwise the registry is rebuilt wholesale
from a fresh discovery pass (every entry starting unmounted, line 107)
and then reconciled against the filesystem (line 87). -/
def connect_to_server (sess : Session) (entry : String)
    (res : Except String (Int × String × String)) (fs : FS) : Session :=
  if pyStrip entry = "" then sess
  else
    { server := pyStrip entry
      shares := check_mounted_shares fs (((detect_shares res).1).map (fun n => (n, false))) }

/-! ## Spec-side definitions, for refinement comparison only -/

/-- Whether a string ends with the given suffix. -/
def strEndsWith (s suf : String) : Bool :=
  startsWithChars suf.toList.reverse s.toList.reverse

/-- Spec 4.1's selection rule, stated from its words: the entry's type
marker (second whitespace token) indicates a disk share and the name
(first token) does not end in the administrative dollar suffix. -/
def specLineSelected (line : String) : Bool :=
  match pySplit line with
  | name :: marker :: _ => marker = "Disk" && !strEndsWith name "$"
  | _ => false

/-- The discovered set as spec 4.1 describes it, for comparison with
`parseShares`. -/
def specShares (stdout : String) : List String :=
  (pyLines stdout).foldl
    (fun acc line => if specLineSelected line then insertShare acc ((pySplit line).headD "") else acc)
    []

/-- Spec 4.2's `resolve`, stated from its words: empty server or share
name yields `InvalidArgument`, otherwise the gvfs path. -/
def resolveSpec (uid : Nat) (server share : String) : Except String String :=
  if server = "" then .error "InvalidArgument"
  else if share = "" then .error "InvalidArgument"
  else .ok ("/run/user/" ++ toString uid ++ "/gvfs/smb-share:server=" ++ server ++ ",share=" ++ share)

/-! ## Concrete filesystem states used by counterexamples and witnesses -/

/-- No links, no endpoints. -/
def fsEmpty : FS where
  links := fun _ => none
  real := fun _ => false

/-- A valid link for share `photo` pointing at an existing target. -/
def fsLinked : FS where
  links := fun k => if k = "photo" then some "/target" else none
  real := fun p => p = "/target"

/-- A stale but valid link for share `video`: its target exists, but the
gvfs endpoint for `video` does not. -/
def fsStale : FS where
  links := fun k => if k = "video" then some "/oldmount" else none
  real := fun p => p = "/oldmount"

/-- No link for share `photo`, but its gvfs endpoint exists. -/
def fsEndpoint : FS where
  links := fun _ => none
  real := fun p => p = endpointPath 1000 "lagrange" "photo"

/-- A dangling link for share `photo` (target `/ghost` does not exist)
and no endpoint either. -/
def fsDangling : FS where
  links := fun k => if k = "photo" then some "/ghost" else none
  real := fun _ => false

/-- A dangling link for share `photo` while the gvfs endpoint exists. -/
def fsDanglingEp : FS where
  links := fun k => if k = "photo" then some "/ghost" else none
  real := fun p => p = endpointPath 1000 "lagrange" "photo"

/-- An existing link for share `music` whose target exists, with the gvfs
endpoint for `music` also present. -/
def fsRepl : FS where
  links := fun k => if k = "music" then some "/oldep" else none
  real := fun p => p = "/oldep" || p = endpointPath 1000 "lagrange" "music"

/-! ## Helper lemmas -/

@[simp]
theorem links_setLink_self (fs : FS) (share : String) (v : Option String) :
    (setLink fs share v).links share = v := by
  simp [setLink]

theorem pathExists_setLink_none (fs : FS) (share : String) :
    pathExists (setLink fs share none) share = false := by
  simp [pathExists]

/-! ## C1: unmount removes the link first and unconditionally -/

/-- C1: `unmount_share` always leaves `exists(linkPath(share))` false: the
link state after the call does not depend on whether the OS unmount
succeeded (no rollback), a run with no link still reports success for the
removal phase, and the OS unmount request is always the last recorded
action, after any link removal. -/
theorem unmount_share_clears_link_first (ok : Bool) (server share : String) (fs : FS) :
    pathExists (unmount_share ok server share fs).2.1 share = false ∧
    (unmount_share ok server share fs).2.1 = (unmount_share true server share fs).2.1 ∧
    (unmount_share true server share fs).1 = true ∧
    ∃ pre, (unmount_share ok server share fs).2.2 = pre ++ [Ev.gioUnmount server share] ∧
      ∀ e ∈ pre, e = Ev.unlink share := by
  cases hpe : pathExists fs share with
  | true =>
    refine ⟨?_, ?_, ?_, ⟨[Ev.unlink share], ?_, ?_⟩⟩ <;>
      cases ok <;> simp [unmount_share, hpe, pathExists_setLink_none]
  | false =>
    refine ⟨?_, ?_, ?_, ⟨[], ?_, ?_⟩⟩ <;>
      cases ok <;> simp [unmount_share, hpe]

/-- Witness for C1 at a concrete state holding a valid link. -/
theorem unmount_share_clears_link_first_witness :
    pathExists (unmount_share false "lagrange" "photo" fsLinked).2.1 "photo" = false ∧
    (unmount_share false "lagrange" "photo" fsLinked).2.1
      = (unmount_share true "lagrange" "photo" fsLinked).2.1 ∧
    (unmount_share true "lagrange" "photo" fsLinked).1 = true ∧
    ∃ pre, (unmount_share false "lagrange" "photo" fsLinked).2.2
        = pre ++ [Ev.gioUnmount "lagrange" "photo"] ∧
      ∀ e ∈ pre, e = Ev.unlink "photo" :=
  unmount_share_clears_link_first false "lagrange" "photo" fsLinked

/-! ## C5: discovery never raises and always degrades to the fallback -/

/-- C5: `detect_shares` is a total function; on an execution failure, on a
non-zero exit status, and on a clean listing with no selected share it
returns the fallback share list together with the distinguishing
outcome. -/
theorem detect_shares_fallback :
    (∀ e, detect_shares (.error e) = (default_shares, .discoveryFailed e)) ∧
    (∀ (rc : Int) (out err : String), rc ≠ 0 →
      detect_shares (.ok (rc, out, err)) = (default_shares, .discoveryFailed err)) ∧
    (∀ out err, parseShares out = [] →
      detect_shares (.ok (0, out, err)) = (default_shares, .noSharesFound)) := by
  refine ⟨fun e => rfl, fun rc out err h => ?_, fun out err h => ?_⟩
  · simp [detect_shares, h]
  · simp [detect_shares, h]

/-- Witness for C5: a raised execution error, a non-zero exit, and a clean
but empty listing each yield the fallback set with its outcome. -/
theorem detect_shares_fallback_witness :
    detect_shares (.error "smbclient missing") = (default_shares, .discoveryFailed "smbclient missing") ∧
    detect_shares (.ok (1, "", "NT_STATUS_UNREACHABLE")) = (default_shares, .discoveryFailed "NT_STATUS_UNREACHABLE") ∧
    detect_shares (.ok (0, "IPC$ IPC", "")) = (default_shares, .noSharesFound) :=
  ⟨detect_shares_fallback.1 "smbclient missing",
   detect_shares_fallback.2.1 1 "" "NT_STATUS_UNREACHABLE" (by decide),
   detect_shares_fallback.2.2 "IPC$ IPC" "" (by decide)⟩

/-! ## C7: the batch loops never short-circuit -/

theorem mount_selected_fold_fst (gio symlink : String → Bool) (uid : Nat) (server : String) :
    ∀ (sel : List String) (acc : List (String × Bool) × FS),
      ((sel.foldl (fun a sh =>
            let r := mount_share (gio sh) (symlink sh) uid server sh a.2
            (a.1 ++ [(sh, r.1)], r.2)) acc).1).map Prod.fst
        = acc.1.map Prod.fst ++ sel := by
  intro sel
  induction sel with
  | nil => intro acc; simp
  | cons sh t ih =>
    intro acc
    rw [List.foldl_cons, ih]
    simp

theorem unmount_selected_fold_fst (osOk : String → Bool) (server : String) :
    ∀ (sel : List String) (acc : List (String × Bool) × FS),
      ((sel.foldl (fun a sh =>
            let r := unmount_share (osOk sh) server sh a.2
            (a.1 ++ [(sh, r.1)], r.2.1)) acc).1).map Prod.fst
        = acc.1.map Prod.fst ++ sel := by
  intro sel
  induction sel with
  | nil => intro acc; simp
  | cons sh t ih =>
    intro acc
    rw [List.foldl_cons, ih]
    simp

/-- C7: `mount_selected` and `unmount_selected` walk the selected names in
order with no short-circuiting: the per-share result sequence lists
exactly the input names, in input order, one entry each — concretely, a
batch `[A, B, C]` where B's mount fails still has three entries in input
order, with A and C attempted and succeeding. -/
theorem selected_batches_no_short_circuit (gio symlink osOk : String → Bool) (uid : Nat)
    (server : String) (selected : List String) (fs gs : FS) :
    (mount_selected gio symlink uid server selected fs).1.map Prod.fst = selected ∧
    (mount_selected gio symlink uid server selected fs).1.length = selected.length ∧
    (unmount_selected osOk server selected gs).1.map Prod.fst = selected ∧
    (unmount_selected osOk server selected gs).1.length = selected.length ∧
    (mount_selected (fun sh => !(sh = "B" : Bool)) (fun _ => true) 1000 "lagrange"
        ["A", "B", "C"] fsEmpty).1
      = [("A", true), ("B", false), ("C", true)] := by
  have hm : (mount_selected gio symlink uid server selected fs).1.map Prod.fst = selected := by
    have := mount_selected_fold_fst gio symlink uid server selected ([], fs)
    simpa [mount_selected] using this
  have hu : (unmount_selected osOk server selected gs).1.map Prod.fst = selected := by
    have := unmount_selected_fold_fst osOk server selected ([], gs)
    simpa [unmount_selected] using this
  refine ⟨hm, ?_, hu, ?_, by decide⟩
  · rw [← List.length_map (mount_selected gio symlink uid server selected fs).1 Prod.fst, hm]
  · rw [← List.length_map (unmount_selected osOk server selected gs).1 Prod.fst, hu]

/-! ## C2: what the discovery filter actually selects -/

theorem mem_insertShare {acc : List String} {m n : String} :
    n ∈ insertShare acc m ↔ n ∈ acc ∨ n = m := by
  unfold insertShare
  by_cases h : acc.contains m
  · have hm : m ∈ acc := by simpa using h
    simp only [if_pos h]
    constructor
    · exact Or.inl
    · rintro (hn | rfl)
      · exact hn
      · exact hm
  · rw [if_neg h]
    simp

theorem mem_parse_foldl (lines : List String) :
    ∀ (acc : List String) (n : String),
      n ∈ lines.foldl parseLine acc ↔
        n ∈ acc ∨ ∃ line ∈ lines, lineSelected line = true ∧ lineName line = n := by
  induction lines with
  | nil => intro acc n; simp
  | cons l t ih =>
    intro acc n
    rw [List.foldl_cons]
    by_cases hs : lineSelected l
    · rw [show parseLine acc l = insertShare acc (lineName l) by simp [parseLine, hs]]
      rw [ih]
      simp only [mem_insertShare, List.mem_cons]
      constructor
      · rintro ((hn | rfl) | ⟨line, hline, hsel, hname⟩)
        · exact Or.inl hn
        · exact Or.inr ⟨l, Or.inl rfl, hs, rfl⟩
        · exact Or.inr ⟨line, Or.inr hline, hsel, hname⟩
      · rintro (hn | ⟨line, (rfl | hline), hsel, hname⟩)
        · exact Or.inl (Or.inl hn)
        · exact Or.inl (Or.inr hname.symm)
        · exact Or.inr ⟨line, hline, hsel, hname⟩
    · rw [show parseLine acc l = acc by simp [parseLine, hs]]
      rw [ih]
      constructor
      · rintro (hn | ⟨line, hline, hsel, hname⟩)
        · exact Or.inl hn
        · exact Or.inr ⟨line, List.mem_cons_of_mem _ hline, hsel, hname⟩
      · rintro (hn | ⟨line, hline, hsel, hname⟩)
        · exact Or.inl hn
        · rcases List.mem_cons.mp hline with rfl | hline'
          · exact absurd hsel hs
          · exact Or.inr ⟨line, hline', hsel, hname⟩

/-- C2 (amended): the discovered set consists exactly of the first
whitespace tokens of the stdout lines that contain `Disk` anywhere and
contain no `$` anywhere (`lineSelected`), not of the lines whose second
token is the `Disk` type marker with a name not ending in `$`; the
concrete `lagrange` listing still yields `{photo, music}`. -/
theorem discovered_set_characterization :
    (∀ out n, n ∈ parseShares out ↔
      ∃ line ∈ pyLines out, lineSelected line = true ∧ lineName line = n) ∧
    parseShares "photo Disk\nIPC$ IPC\nmusic Disk" = ["photo", "music"] := by
  refine ⟨fun out n => ?_, by decide⟩
  simpa using mem_parse_foldl (pyLines out) [] n

/-- Counterexample for C2 as stated: the line `MyDisk IPC` has type
marker `IPC`, not a disk share, yet the code selects it (`Disk` occurs
inside the name); the line `pho$to Disk` is a disk share whose name does
not end in `$`, yet the code rejects it (`$` occurs inside the line).
The code's discovered set is therefore not the set the claim
describes. -/
theorem disk_filter_counterexample :
    lineSelected "MyDisk IPC" = true ∧ specLineSelected "MyDisk IPC" = false ∧
    parseShares "MyDisk IPC" = ["MyDisk"] ∧ specShares "MyDisk IPC" = [] ∧
    lineSelected "pho$to Disk" = false ∧ specLineSelected "pho$to Disk" = true ∧
    parseShares "pho$to Disk" = [] ∧ specShares "pho$to Disk" = ["pho$to"] := by
  decide

/-- Witness for C2's amended theorem at the concrete listing. -/
theorem discovered_set_characterization_witness :
    ("photo" ∈ parseShares "photo Disk\nIPC$ IPC\nmusic Disk" ↔
      ∃ line ∈ pyLines "photo Disk\nIPC$ IPC\nmusic Disk",
        lineSelected line = true ∧ lineName line = "photo") ∧
    parseShares "photo Disk\nIPC$ IPC\nmusic Disk" = ["photo", "music"] :=
  ⟨discovered_set_characterization.1 "photo Disk\nIPC$ IPC\nmusic Disk" "photo",
   discovered_set_characterization.2⟩

/-! ## C8: the registry is rebuilt wholesale on a server change -/

theorem nodup_insertShare {acc : List String} (n : String) (h : acc.Nodup) :
    (insertShare acc n).Nodup := by
  unfold insertShare
  by_cases hc : acc.contains n
  · rw [if_pos hc]
    exact h
  · have hn : n ∉ acc := by simpa using hc
    rw [if_neg hc]
    simp [List.nodup_append, h, hn]

theorem nodup_parse_foldl (lines : List String) :
    ∀ acc : List String, acc.Nodup → (lines.foldl parseLine acc).Nodup := by
  induction lines with
  | nil => intro acc h; simpa
  | cons l t ih =>
    intro acc h
    rw [List.foldl_cons]
    apply ih
    unfold parseLine
    by_cases hs : lineSelected l
    · rw [if_pos hs]
      exact nodup_insertShare _ h
    · rwa [if_neg hs]

theorem nodup_detect (res : Except String (Int × String × String)) :
    ((detect_shares res).1).Nodup := by
  have hd : default_shares.Nodup := by decide
  match res with
  | .error e => exact hd
  | .ok (rc, out, err) =>
    simp only [detect_shares]
    split
    · split
      · exact hd
      · exact nodup_parse_foldl _ [] List.nodup_nil
    · exact hd

/-- C8: after a (non-empty) server change, the registry's keys are unique
and its membership is exactly the newest discovery result — no entry of
the previous session's registry survives unless rediscovered. -/
theorem connect_rebuilds_registry (sess : Session) (entry : String)
    (res : Except String (Int × String × String)) (fs : FS) (h : pyStrip entry ≠ "") :
    ((connect_to_server sess entry res fs).shares.map Prod.fst).Nodup ∧
    ∀ n, n ∈ (connect_to_server sess entry res fs).shares.map Prod.fst ↔
      n ∈ (detect_shares res).1 := by
  have hmap : (connect_to_server sess entry res fs).shares.map Prod.fst
      = (detect_shares res).1 := by
    simp only [connect_to_server, if_neg h, check_mounted_shares, List.map_map]
    exact (List.map_congr_left fun n _ => rfl).trans (List.map_id _)
  rw [hmap]
  exact ⟨nodup_detect res, fun n => Iff.rfl⟩

/-- Witness for C8: connecting to `lagrange` from a session holding a
stale entry rebuilds the registry from the fresh listing only. -/
theorem connect_rebuilds_registry_witness :
    ((connect_to_server ⟨"oldsrv", [("stale", true)]⟩ "lagrange"
        (.ok (0, "photo Disk\nmusic Disk", "")) fsEmpty).shares.map Prod.fst).Nodup ∧
    ∀ n, n ∈ (connect_to_server ⟨"oldsrv", [("stale", true)]⟩ "lagrange"
        (.ok (0, "photo Disk\nmusic Disk", "")) fsEmpty).shares.map Prod.fst ↔
      n ∈ (detect_shares (.ok (0, "photo Disk\nmusic Disk", ""))).1 :=
  connect_rebuilds_registry ⟨"oldsrv", [("stale", true)]⟩ "lagrange"
    (.ok (0, "photo Disk\nmusic Disk", "")) fsEmpty (by decide)

/-! ## C3: mount followed by reconcile -/

@[simp]
theorem real_setLink (fs : FS) (share : String) (v : Option String) :
    (setLink fs share v).real = fs.real := rfl

/-- C3 (amended): assuming the OS mount command succeeds and nothing
occupies the link path beforehand, `mount_share` reports success and an
immediate reconcile sets the share's `mounted` flag to exactly whether
the resolved endpoint existed at mount-call completion; and whenever the
endpoint does not exist, a successful OS mount still reports success and
changes nothing (no link is created). -/
theorem mount_then_reconcile_clean (uid : Nat) (server share : String) (fs : FS) :
    (fs.links share = none →
      (mount_share true true uid server share fs).1 = true ∧
      check_mounted_shares (mount_share true true uid server share fs).2 [(share, false)]
        = [(share, fs.real (endpointPath uid server share))]) ∧
    (∀ symlinkOk, fs.real (endpointPath uid server share) = false →
      mount_share true symlinkOk uid server share fs = (true, fs)) := by
  constructor
  · intro hlink
    have hpe : pathExists fs share = false := by simp [pathExists, hlink]
    by_cases hreal : fs.real (endpointPath uid server share)
    · simp [mount_share, hreal, hpe, hlink, check_mounted_shares, pathExists]
    · simp only [Bool.not_eq_true] at hreal
      simp [mount_share, hreal, hpe, check_mounted_shares, pathExists, hlink]
  · intro symlinkOk hreal
    simp [mount_share, hreal]

/-- Counterexample for C3 as stated: with a stale but valid link left at
the link path and the endpoint absent, a successful `mount_share` reports
success, and the immediately following reconcile sets `mounted = true`
even though the resolved endpoint did not exist at mount-call completion
time. -/
theorem mount_reconcile_counterexample :
    (mount_share true true 1000 "lagrange" "video" fsStale).1 = true ∧
    fsStale.real (endpointPath 1000 "lagrange" "video") = false ∧
    check_mounted_shares (mount_share true true 1000 "lagrange" "video" fsStale).2
      [("video", false)] = [("video", true)] := by
  decide

/-- Witness for C3's amended theorem: both branches of the race at
concrete states. -/
theorem mount_then_reconcile_clean_witness :
    ((mount_share true true 1000 "lagrange" "photo" fsEndpoint).1 = true ∧
      check_mounted_shares (mount_share true true 1000 "lagrange" "photo" fsEndpoint).2
        [("photo", false)]
        = [("photo", fsEndpoint.real (endpointPath 1000 "lagrange" "photo"))]) ∧
    mount_share true true 1000 "lagrange" "photo" fsEmpty = (true, fsEmpty) :=
  ⟨(mount_then_reconcile_clean 1000 "lagrange" "photo" fsEndpoint).1 rfl,
   (mount_then_reconcile_clean 1000 "lagrange" "photo" fsEmpty).2 true rfl⟩

/-! ## C4: the link replace is remove-then-create, not atomic -/

/-- C4 (amended): the replace is remove-then-create rather than atomic.
After any run of `mount_share` the link at the share's path is the old
link, absent, or a fresh link to the resolved endpoint — never a link to
anything else — and the specific mid-replace failure (successful OS
mount, endpoint present, old link present, symlink creation failing)
reports failure and leaves no link at all, not a stale one. -/
theorem mount_replace_safety (gioOk symlinkOk : Bool) (uid : Nat) (server share : String)
    (fs : FS) :
    ((mount_share gioOk symlinkOk uid server share fs).2.links share = fs.links share ∨
      (mount_share gioOk symlinkOk uid server share fs).2.links share = none ∨
      (mount_share gioOk symlinkOk uid server share fs).2.links share
        = some (endpointPath uid server share)) ∧
    (gioOk = true → symlinkOk = false →
      fs.real (endpointPath uid server share) = true → pathExists fs share = true →
      (mount_share gioOk symlinkOk uid server share fs).1 = false ∧
      (mount_share gioOk symlinkOk uid server share fs).2.links share = none) := by
  constructor
  · cases gioOk with
    | false => exact Or.inl (by simp [mount_share])
    | true =>
      by_cases hreal : fs.real (endpointPath uid server share)
      · by_cases hpe : pathExists fs share
        · cases symlinkOk with
          | true =>
            exact Or.inr (Or.inr (by simp [mount_share, hreal, hpe]))
          | false =>
            exact Or.inr (Or.inl (by simp [mount_share, hreal, hpe]))
        · cases hl : fs.links share with
          | some t => exact Or.inl (by simp [mount_share, hreal, hpe, hl])
          | none =>
            cases symlinkOk with
            | true =>
              exact Or.inr (Or.inr (by simp [mount_share, hreal, hpe, hl]))
            | false =>
              exact Or.inl (by simp [mount_share, hreal, hpe, hl])
      · simp only [Bool.not_eq_true] at hreal
        exact Or.inl (by simp [mount_share, hreal])
  · rintro rfl rfl hreal hpe
    simp [mount_share, hreal, hpe]

/-- Counterexample for C4 as stated: the replace is not atomic.  At a
state with a valid old link and an existing endpoint, a failure of the
symlink-creation step (after a successful OS mount) leaves the link
neither as the old link nor as the fresh endpoint link — the old link is
already removed and nothing replaced it. -/
theorem mount_replace_not_atomic :
    ¬ ∀ (fs : FS) (symlinkOk : Bool),
        pathExists fs "music" = true →
        fs.real (endpointPath 1000 "lagrange" "music") = true →
        ((mount_share true symlinkOk 1000 "lagrange" "music" fs).2.links "music"
            = fs.links "music" ∨
          (mount_share true symlinkOk 1000 "lagrange" "music" fs).2.links "music"
            = some (endpointPath 1000 "lagrange" "music")) := by
  intro hat
  rcases hat fsRepl false (by decide) (by decide) with h1 | h1 <;> exact absurd h1 (by decide)

/-- Witness for C4's amended theorem at the concrete mid-replace
failure. -/
theorem mount_replace_safety_witness :
    (mount_share true false 1000 "lagrange" "music" fsRepl).1 = false ∧
    (mount_share true false 1000 "lagrange" "music" fsRepl).2.links "music" = none :=
  (mount_replace_safety true false 1000 "lagrange" "music" fsRepl).2 rfl rfl
    (by decide) (by decide)

/-! ## C10: a dangling link at the link path -/

/-- C10 (amended): when the link path holds a dangling symlink and the
resolved endpoint does exist, a successful OS-level mount still makes
`mount_share` report failure and leave the state untouched: the
existence check follows the dangling link so the stale link is not
removed, the symlink creation then fails on the occupied path, and the
OS-level mount stays in place while the dangling link survives. -/
theorem mount_dangling_link_fails (symlinkOk : Bool) (uid : Nat) (server share t : String)
    (fs : FS) (hlink : fs.links share = some t) (ht : fs.real t = false)
    (hend : fs.real (endpointPath uid server share) = true) :
    mount_share true symlinkOk uid server share fs = (false, fs) := by
  have hpe : pathExists fs share = false := by simp [pathExists, hlink, ht]
  simp [mount_share, hend, hpe, hlink]

/-- Counterexample for C10 as stated: with a dangling link but the
endpoint *not* yet existing, a successful OS-level mount makes
`mount_share` report success (the symlink branch is skipped entirely),
contradicting the claim that it reports failure for every dangling-link
state; the dangling link also survives. -/
theorem dangling_link_counterexample :
    fsDangling.links "photo" = some "/ghost" ∧
    fsDangling.real "/ghost" = false ∧
    (mount_share true true 1000 "lagrange" "photo" fsDangling).1 = true ∧
    (mount_share true true 1000 "lagrange" "photo" fsDangling).2.links "photo"
      = some "/ghost" := by
  decide

/-- Witness for C10's amended theorem at a concrete dangling-link state
with the endpoint present. -/
theorem mount_dangling_link_fails_witness :
    mount_share true true 1000 "lagrange" "photo" fsDanglingEp = (false, fsDanglingEp) :=
  mount_dangling_link_fails true 1000 "lagrange" "photo" "/ghost" fsDanglingEp
    (by decide) (by decide) (by decide)

/-! ## C6: refresh carries per-share flags forward -/

theorem lookup_eq_none_of_not_mem :
    ∀ {l : List (String × Bool)} {a : String}, a ∉ l.map Prod.fst → l.lookup a = none := by
  intro l
  induction l with
  | nil => intro a _; rfl
  | cons p t ih =>
    intro a ha
    obtain ⟨k, b⟩ := p
    simp only [List.map_cons, List.mem_cons] at ha
    push_neg at ha
    obtain ⟨hak, hat⟩ := ha
    have hbeq : (a == k) = false := by simpa using hak
    simp only [List.lookup, hbeq]
    exact ih hat

theorem setFlag_map (newNames : List String) (f : String → Bool) (k : String) (b : Bool) :
    setFlag (newNames.map fun n => (n, f n)) k b
      = newNames.map fun n => (n, if n = k then b else f n) := by
  simp only [setFlag, List.map_map]
  apply List.map_congr_left
  intro n _
  by_cases hnk : n = k
  · simp [Function.comp, hnk]
  · simp [Function.comp, hnk]

theorem refresh_fold_eq (newNames : List String) :
    ∀ (old : List (String × Bool)) (f : String → Bool), (old.map Prod.fst).Nodup →
      old.foldl (fun acc p => if newNames.contains p.1 then setFlag acc p.1 p.2 else acc)
        (newNames.map fun n => (n, f n))
      = newNames.map fun n => (n, (old.lookup n).getD (f n)) := by
  intro old
  induction old with
  | nil => intro f _; rfl
  | cons p t ih =>
    intro f hnd
    obtain ⟨k, b⟩ := p
    simp only [List.map_cons, List.nodup_cons] at hnd
    obtain ⟨hk, hnd'⟩ := hnd
    rw [List.foldl_cons]
    by_cases hc : newNames.contains k
    · rw [if_pos hc, setFlag_map, ih (fun n => if n = k then b else f n) hnd']
      apply List.map_congr_left
      intro n hn
      by_cases hnk : n = k
      · subst hnk
        have hnone : t.lookup n = none := lookup_eq_none_of_not_mem hk
        simp [List.lookup, hnone]
      · have hbeq : (n == k) = false := by simpa using hnk
        simp [List.lookup, hbeq, hnk]
    · rw [if_neg hc, ih f hnd']
      apply List.map_congr_left
      intro n hn
      have hnk : ¬n = k := by
        intro he
        subst he
        exact hc (by simpa using hn)
      have hbeq : (n == k) = false := by simpa using hnk
      simp [List.lookup, hbeq]

/-- C6: the refresh flow's carried state maps each name of the new share
set to its old flag when the name was present before and to `false` when
it is new; names absent from the new set are dropped.  Concretely,
`old = {A: true, B: false}` and `new = {A, C}` yield
`{A: true, C: false}`. -/
theorem refresh_preserves_mounted (old : List (String × Bool)) (newNames : List String)
    (hnd : (old.map Prod.fst).Nodup) :
    refresh_carry old newNames
      = newNames.map (fun n => (n, (old.lookup n).getD false)) ∧
    refresh_carry [("A", true), ("B", false)] ["A", "C"] = [("A", true), ("C", false)] := by
  constructor
  · have h := refresh_fold_eq newNames old (fun _ => false) hnd
    simpa [refresh_carry] using h
  · decide

/-- Witness for C6 at the claim's concrete registries. -/
theorem refresh_preserves_mounted_witness :
    refresh_carry [("A", true), ("B", false)] ["A", "C"]
      = ["A", "C"].map (fun n => (n, ([("A", true), ("B", false)].lookup n).getD false)) ∧
    refresh_carry [("A", true), ("B", false)] ["A", "C"] = [("A", true), ("C", false)] :=
  refresh_preserves_mounted [("A", true), ("B", false)] ["A", "C"] (by decide)

/-! ## C9: the endpoint resolver has no failure mode -/

/-- C9 (amended): the endpoint resolver of line 220 is a deterministic
pure string construction agreeing with the spec's path scheme on every
non-empty server and share name, but it rejects nothing: the code
contains no empty-name check, so the `InvalidArgument` failure mode
exists only on the spec side. -/
theorem endpointPath_vs_resolveSpec (uid : Nat) (server share : String) :
    (server ≠ "" → share ≠ "" →
      resolveSpec uid server share = Except.ok (endpointPath uid server share)) ∧
    resolveSpec uid "" share = Except.error "InvalidArgument" ∧
    resolveSpec uid server "" = Except.error "InvalidArgument" := by
  refine ⟨fun hs hsh => ?_, rfl, ?_⟩
  · simp [resolveSpec, hs, hsh, endpointPath]
  · by_cases hs : server = ""
    · simp [resolveSpec, hs]
    · simp [resolveSpec, hs]

/-- Counterexample for C9 as stated: on an empty server name the spec's
resolver yields `InvalidArgument`, but the code's resolver yields a
well-formed path with an empty server component — the code has no
`InvalidArgument` failure mode at all. -/
theorem resolve_empty_name_counterexample :
    resolveSpec 1000 "" "photo" = Except.error "InvalidArgument" ∧
    endpointPath 1000 "" "photo" = "/run/user/1000/gvfs/smb-share:server=,share=photo" :=
  ⟨rfl, by decide⟩

/-- Witness for C9's amended theorem on a concrete valid input and a
concrete empty input. -/
theorem endpointPath_vs_resolveSpec_witness :
    resolveSpec 1000 "lagrange" "photo"
      = Except.ok (endpointPath 1000 "lagrange" "photo") ∧
    resolveSpec 1000 "" "photo" = Except.error "InvalidArgument" :=
  ⟨(endpointPath_vs_resolveSpec 1000 "lagrange" "photo").1 (by decide) (by decide),
   (endpointPath_vs_resolveSpec 1000 "" "photo").2.1⟩

end SMBMounter
